import Mathlib

/-!
Shallow embedding of the factory-farm violations tracker's ingestion core
(src/database.py, src/scrape.py, src/scrapers/epa_echo.py,
src/scrapers/fsis_recalls.py), together with theorems checking the
specification's claims about it.

Raw JSON payload fields are modelled as `Option String` (a missing key is
`none`); Python's `dict.get(key, default)` becomes `Option.getD`.  Network
responses are supplied by oracle functions (`none` models a raised transport
exception).  Bounded `while`/`for` loops are embedded with an explicit fuel
argument that dominates their bound, keeping every definition executable.
Floating-point values (latitude, longitude, penalty amount) are kept as the
source string together with a parsability test, since no claim depends on
float arithmetic.
-/

namespace Tracker

/-- Python `str.lower()` (per-character lowering, as on the ASCII data
these APIs return). -/
def lowerStr (s : String) : String := String.mk (s.toList.map Char.toLower)

/-- Python `str.upper()`. -/
def upperStr (s : String) : String := String.mk (s.toList.map Char.toUpper)

/-- Whether `needle` occurs at the head of `hay`. -/
def startsWithL : List Char → List Char → Bool
  | _, [] => true
  | [], _ :: _ => false
  | h :: t, n :: ns => h = n && startsWithL t ns

/-- Python's substring test `needle in hay` on character lists. -/
def containsSubL : List Char → List Char → Bool
  | [], needle => needle.isEmpty
  | h :: t, needle => startsWithL (h :: t) needle || containsSubL t needle

/-- Python's substring test `needle in hay` on strings. -/
def containsSub (hay needle : String) : Bool := containsSubL hay.toList needle.toList

/-- A nonempty all-digit character run. -/
def digitsNonempty (l : List Char) : Bool := !l.isEmpty && l.all Char.isDigit

/-- Base-10 value of a digit run. -/
def natFromDigits (l : List Char) : Nat :=
  l.foldl (fun n c => n * 10 + (c.toNat - '0'.toNat)) 0

/-- Models `int(s) if s else 0` wrapped in `try/except ValueError` returning 0
(epa_echo.py lines 152-155): on the non-negative decimal strings this API
returns, `int` is the base-10 digit value; the empty string and an
unparseable string give 0. -/
def parseIntDefault0 (s : String) : Nat :=
  if digitsNonempty s.toList then natFromDigits s.toList else 0

/-- Whether Python `float(s)` succeeds, modelled for the plain decimal
strings these APIs return: optional sign, then digits with an optional
fractional part (at least one digit overall). -/
def floatCore (l : List Char) : Bool :=
  let ip := l.takeWhile Char.isDigit
  match l.dropWhile Char.isDigit with
  | [] => !ip.isEmpty
  | '.' :: fp => (!ip.isEmpty || !fp.isEmpty) && fp.all Char.isDigit
  | _ => false

/-- See `floatCore`. -/
def floatParses (s : String) : Bool :=
  match s.toList with
  | [] => false
  | c :: t => if c = '+' || c = '-' then floatCore t else floatCore (c :: t)

/-- Python `", ".join(filter(None, parts))` for a list of plain strings:
empty strings are dropped, the rest are interleaved with the separator. -/
def joinNonempty (sep : String) (parts : List String) : String :=
  String.intercalate sep (parts.filter (fun s => s ≠ ""))

/-- Python `sep.join(filter(None, parts))` where the list mixes `None` with
(nonempty) formatted strings. -/
def joinParts (sep : String) (parts : List (Option String)) : String :=
  String.intercalate sep ((parts.filterMap id).filter (fun s => s ≠ ""))

/-! ## Canonical violation record

The kwargs dictionary passed to `upsert_violation` (§3 of the spec,
`violations` table of database.py minus the autoincrement id and timestamp). -/

structure Row where
  facility_name : String
  location : String
  state : Option String
  county : Option String
  latitude : Option String
  longitude : Option String
  violation_type : String
  date : Option String
  source : String
  source_id : Option String
  description : String
  severity : Option String
  penalty_amount : Option String
deriving DecidableEq

/-! ## FSIS recall normalizer (src/scrapers/fsis_recalls.py) -/

/-- A raw openFDA food-enforcement result object (the fields
`recall_to_violation` reads). -/
structure Recall where
  recalling_firm : Option String
  city : Option String
  state : Option String
  classification : Option String
  reason_for_recall : Option String
  product_description : Option String
  product_quantity : Option String
  recall_number : Option String
  recall_initiation_date : Option String
  distribution_pattern : Option String
  voluntary_mandated : Option String
deriving DecidableEq

/-- The `CLASS_SEVERITY` dictionary looked up with `.get(c, "Medium")`
(fsis_recalls.py lines 36-40 and 88). -/
def classSeverity (c : String) : String :=
  if c = "Class I" then "High"
  else if c = "Class II" then "Medium"
  else if c = "Class III" then "Low"
  else "Medium"

/-- The date reformatting of fsis_recalls.py lines 83-85: an 8-character
`init_date` becomes `init_date[:4] + "-" + init_date[4:6] + "-" + init_date[6:8]`. -/
def isoizeDate (d : String) : String :=
  String.mk (d.toList.take 4) ++ "-" ++ String.mk ((d.toList.drop 4).take 2)
    ++ "-" ++ String.mk ((d.toList.drop 6).take 2)

/-- The `desc_parts` list of fsis_recalls.py lines 90-97. -/
def recallDescParts (rc : Recall) : List (Option String) :=
  let classification := rc.classification.getD ""
  let reason := rc.reason_for_recall.getD ""
  let product := rc.product_description.getD ""
  let quantity := rc.product_quantity.getD ""
  let distribution := rc.distribution_pattern.getD ""
  let voluntary := rc.voluntary_mandated.getD ""
  [if product ≠ "" then some ("Product: " ++ product) else none,
   if reason ≠ "" then some ("Reason: " ++ reason) else none,
   if quantity ≠ "" then some ("Quantity: " ++ quantity) else none,
   if distribution ≠ "" then some ("Distribution: " ++ distribution) else none,
   if voluntary ≠ "" then some ("Type: " ++ voluntary) else none,
   if classification ≠ "" then some ("Classification: " ++ classification) else none]

/-- The assembled recall description before the length cap
(fsis_recalls.py line 98). -/
def assembleRecallDesc (rc : Recall) : String :=
  joinParts ". " (recallDescParts rc)

/-- Embeds `recall_to_violation` (fsis_recalls.py lines 68-118). -/
def recall_to_violation (rc : Recall) : Row :=
  let firm := rc.recalling_firm.getD "Unknown"
  let city := rc.city.getD ""
  let state := rc.state.getD ""
  let classification := rc.classification.getD ""
  let recall_number := rc.recall_number.getD ""
  let init_date := rc.recall_initiation_date.getD ""
  let date : Option String :=
    if init_date ≠ "" ∧ init_date.length = 8 then some (isoizeDate init_date) else none
  let location := joinNonempty ", " [city, state]
  let severity := classSeverity classification
  let desc0 := assembleRecallDesc rc
  let description := if desc0.length > 2000
    then String.mk (desc0.toList.take 1997) ++ "..." else desc0
  { facility_name := firm
    location := location
    state := if state.length = 2 then some state else none
    county := none
    latitude := none
    longitude := none
    violation_type := "Food Safety Recall - Meat/Poultry"
    date := date
    source := "USDA FSIS (via openFDA)"
    source_id := some ("FDA-" ++ recall_number)
    description := description
    severity := some severity
    penalty_amount := none }

/-! ## EPA ECHO normalizer (src/scrapers/epa_echo.py) -/

/-- A raw ECHO facility object (the fields `facility_to_violation` reads). -/
structure Facility where
  CWPName : Option String
  SourceID : Option String
  CWPStreet : Option String
  CWPCity : Option String
  CWPState : Option String
  CWPCounty : Option String
  FacLat : Option String
  FacLong : Option String
  CWPComplianceStatus : Option String
  CWPSNCStatus : Option String
  CWPQtrsWithNC : Option String
  CWPPermitStatusDesc : Option String
  CWPDateLastInspection : Option String
  CWPDateLastPenalty : Option String
  CWPTotalPenalties : Option String
  CWPFormalEaCount : Option String
deriving DecidableEq

/-- The `SIC_NAMES` dictionary (epa_echo.py lines 27-33), looked up as
`SIC_NAMES.get(sic_code, sic_code)` inside `facility_to_violation`. -/
def sicName (sic : String) : String :=
  if sic = "0211" then "Beef Cattle Feedlots"
  else if sic = "0213" then "Hog Operations"
  else if sic = "0251" then "Broiler/Fryer Chickens"
  else if sic = "0252" then "Egg Production"
  else if sic = "0253" then "Turkey Operations"
  else sic

/-- Python `str.replace("$", "").replace(",", "")` on the penalty string. -/
def stripCurrency (s : String) : String :=
  String.mk (s.toList.filter (fun c => c ≠ '$' ∧ c ≠ ','))

/-- The latitude/longitude block of epa_echo.py lines 140-144: if either
present value fails `float()`, the exception handler nulls both. -/
def echoLatLon (f : Facility) : Option String × Option String :=
  let latRaw := f.FacLat.getD ""
  let lonRaw := f.FacLong.getD ""
  if (latRaw ≠ "" ∧ ¬ floatParses latRaw) ∨ (lonRaw ≠ "" ∧ ¬ floatParses lonRaw)
  then (none, none)
  else (if latRaw ≠ "" then some latRaw else none,
        if lonRaw ≠ "" then some lonRaw else none)

/-- The severity conditional of epa_echo.py lines 146-150. -/
def echoSeverity (f : Facility) : String :=
  let compliance_status := f.CWPComplianceStatus.getD ""
  let snc_status := f.CWPSNCStatus.getD ""
  if snc_status ≠ "" ∧ containsSub (upperStr snc_status) "S" then "High"
  else if compliance_status ≠ "" ∧ containsSub (lowerStr compliance_status) "violation"
  then "Medium"
  else "Low"

/-- The parsed quarters-in-noncompliance count (epa_echo.py lines 152-155). -/
def echoQtrs (f : Facility) : Nat := parseIntDefault0 (f.CWPQtrsWithNC.getD "0")

/-- The `desc_parts` join of epa_echo.py lines 160-167 (note: no length
cap is applied on this path). -/
def echoDescription (f : Facility) (sic_code : String) : String :=
  let compliance_status := f.CWPComplianceStatus.getD ""
  let permit_status := f.CWPPermitStatusDesc.getD ""
  let formal_ea_count := f.CWPFormalEaCount.getD "0"
  let qtrs := echoQtrs f
  joinParts ". "
    [some ("CAFO Type: " ++ sicName sic_code),
     if permit_status ≠ "" then some ("Permit Status: " ++ permit_status) else none,
     if compliance_status ≠ "" then some ("Compliance: " ++ compliance_status) else none,
     if qtrs > 0 then some ("Quarters in Non-Compliance: " ++ toString qtrs) else none,
     if formal_ea_count ≠ "" ∧ formal_ea_count ≠ "0"
     then some ("Formal Enforcement Actions: " ++ formal_ea_count) else none]

/-- The penalty parse of epa_echo.py lines 169-174 (strip "$" and ",",
keep only if `float()` succeeds). -/
def echoPenalty (f : Facility) : Option String :=
  let total_penalties := f.CWPTotalPenalties.getD ""
  let penaltyStr := stripCurrency total_penalties
  if total_penalties ≠ "" ∧ floatParses penaltyStr then some penaltyStr else none

/-- The date choice of epa_echo.py line 184:
`last_penalty_date or last_inspection or None`, with no format conversion. -/
def echoDate (f : Facility) : Option String :=
  let last_penalty_date := f.CWPDateLastPenalty.getD ""
  let last_inspection := f.CWPDateLastInspection.getD ""
  if last_penalty_date ≠ "" then some last_penalty_date
  else if last_inspection ≠ "" then some last_inspection
  else none

/-- Embeds `facility_to_violation` (epa_echo.py lines 119-190), with the field
computations factored into the named helpers above. -/
def facility_to_violation (facility : Facility) (sic_code : String) : Option Row :=
  if echoQtrs facility = 0 ∧ echoSeverity facility = "Low"
      ∧ facility.CWPDateLastPenalty.getD "" = "" then none
  else some
    { facility_name := facility.CWPName.getD "Unknown"
      location := joinNonempty ", "
        [facility.CWPStreet.getD "", facility.CWPCity.getD "", facility.CWPState.getD ""]
      state := some (facility.CWPState.getD "")
      county := some (facility.CWPCounty.getD "")
      latitude := (echoLatLon facility).1
      longitude := (echoLatLon facility).2
      violation_type := "Clean Water Act - CAFO"
      date := echoDate facility
      source := "EPA ECHO"
      source_id := some ("ECHO-CWA-" ++ facility.SourceID.getD "")
      description := echoDescription facility sic_code
      severity := some (echoSeverity facility)
      penalty_amount := echoPenalty facility }

/-! ## Canonical store (src/database.py)

The `violations` table is modelled as its list of rows in insertion order.
`UNIQUE(source, source_id)` follows SQLite semantics: two rows conflict only
when their `source` values are equal and their `source_id` values are equal
and non-NULL (SQLite treats NULLs in a unique constraint as distinct). -/

/-- Inserting `y` conflicts with an existing row `x` under
`UNIQUE(source, source_id)`. -/
def dupKey (x y : Row) : Prop :=
  x.source = y.source ∧ x.source_id = y.source_id ∧ y.source_id ≠ none

instance (x y : Row) : Decidable (dupKey x y) := by
  unfold dupKey; infer_instance

/-- Whether the table already holds a row conflicting with `r`. -/
def hasKey (tbl : List Row) (r : Row) : Bool :=
  tbl.any fun x => decide (dupKey x r)

/-- Embeds `upsert_violation` (database.py lines 48-57): `INSERT OR IGNORE` keyed on
`UNIQUE(source, source_id)`.  The Python function body ends without a
`return`, i.e. it returns `None`; the second component records that returned
value as `(none : Option Bool)` — no insertion flag is ever reported. -/
def upsert_violation (tbl : List Row) (r : Row) : List Row × Option Bool :=
  if hasKey tbl r then (tbl, none) else (tbl ++ [r], none)

/-- The table after an upsert. -/
def upsertTable (tbl : List Row) (r : Row) : List Row :=
  (upsert_violation tbl r).1

/-- Upserting a batch of records in order. -/
def upsertList (tbl : List Row) (rs : List Row) : List Row :=
  rs.foldl upsertTable tbl

/-- No two rows of the table conflict under `UNIQUE(source, source_id)`. -/
def NoDupKey (tbl : List Row) : Prop :=
  tbl.Pairwise fun x y => ¬ dupKey x y

/-! ## FSIS scraper loop (src/scrapers/fsis_recalls.py lines 121-162) -/

/-- The mutable state of `scrape_fsis_recalls`: the `seen_ids` set, the
database table, and the `total_inserted` counter. -/
structure ScrapeState where
  seen : List String
  table : List Row
  inserted : Nat
deriving DecidableEq

/-- The raw `recall_number` with the `.get("recall_number", "")` default. -/
def getNum (rc : Recall) : String := rc.recall_number.getD ""

/-- Body of the per-recall loop (fsis_recalls.py lines 139-150): dedup on raw
`recall_number` before normalization, then normalize and upsert, counting
every upsert call as inserted. -/
def processRecall (st : ScrapeState) (rc : Recall) : ScrapeState :=
  let recall_num := rc.recall_number.getD ""
  if recall_num ∈ st.seen then st
  else
    { seen := recall_num :: st.seen
      table := upsertTable st.table (recall_to_violation rc)
      inserted := st.inserted + 1 }

/-- One page of results, processed in order. -/
def processResults (st : ScrapeState) (results : List Recall) : ScrapeState :=
  results.foldl processRecall st

/-- The `while skip < max_per_query` pagination loop of `scrape_fsis_recalls`
for one search query.  `oracle skip` is the list that
`fetch_recalls(query, limit=100, skip=skip)` returns (that function catches
its own exceptions and returns a list in all cases).  Alongside the state the
loop accumulates the list of offsets actually requested, in request order.
`fuel` bounds the iteration count; each iteration either stops or increases
`skip` by at least 1, so `cap + 1` fuel (as passed by `fsisQuery`) makes the
embedding agree with the unbounded `while` loop. -/
def fsisQueryLoop (oracle : Nat → List Recall) (cap : Nat) :
    Nat → Nat → ScrapeState → List Nat → ScrapeState × List Nat
  | 0, _, st, offs => (st, offs)
  | fuel + 1, skip, st, offs =>
    if skip < cap then
      let results := oracle skip
      let offs := offs ++ [skip]
      if results = [] then (st, offs)
      else
        let st := processResults st results
        if results.length < 100 then (st, offs)
        else fsisQueryLoop oracle cap fuel (skip + results.length) st offs
    else (st, offs)

/-- One search query of `scrape_fsis_recalls`, starting at offset 0. -/
def fsisQuery (oracle : Nat → List Recall) (cap : Nat) (st : ScrapeState) :
    ScrapeState × List Nat :=
  fsisQueryLoop oracle cap (cap + 1) 0 st []

/-- Embeds `scrape_fsis_recalls`: the outer loop over `SEARCH_QUERIES`, one oracle
per query, threading the shared seen-set/table/counter state. -/
def scrape_fsis_recalls (oracles : List (Nat → List Recall)) (cap : Nat)
    (init : ScrapeState) : ScrapeState :=
  oracles.foldl (fun st oracle => (fsisQuery oracle cap st).1) init

/-! ## EPA ECHO fetcher (src/scrapers/epa_echo.py lines 36-116) -/

/-- The `Results` envelope of an ECHO response, restricted to the fields the
fetcher reads.  `QueryRows` carries the value of
`int(results.get("QueryRows", 0))` (a decimal string in the wire format). -/
structure EchoResults where
  Message : Option String
  QueryRows : Option Nat
  QueryID : Option String
  Facilities : List Facility
deriving DecidableEq

/-- The polling loop of `fetch_facilities_for_sic` (epa_echo.py lines 56-72):
while the results say "Working" and fewer than 12 poll attempts were made,
re-issue the initiating query.  `oracle n` is the response to the `n`-th
re-issue (`none` models a raised exception: the loop keeps the old results
and continues).  Returns the final results and the number of poll attempts.
The loop condition caps attempts at 12, so fuel 13 (as passed by
`fetch_facilities_for_sic`) makes the embedding agree with the `while`. -/
def pollLoop (oracle : Nat → Option EchoResults) :
    Nat → EchoResults → Nat → EchoResults × Nat
  | 0, results, attempts => (results, attempts)
  | fuel + 1, results, attempts =>
    if results.Message = some "Working" ∧ attempts < 12 then
      match oracle (attempts + 1) with
      | some r => pollLoop oracle fuel r (attempts + 1)
      | none => pollLoop oracle fuel results (attempts + 1)
    else (results, attempts)

/-- The per-page retry loop (epa_echo.py lines 88-111): up to 6 attempts; an
exception or a "Working" page consumes an attempt and retries; the first
other response ends the page, contributing its `Facilities` (possibly none).
Exhausting the 6 attempts contributes nothing. -/
def fetchPageAttempts (oracle : Nat → Option EchoResults) :
    Nat → Nat → List Facility
  | 0, _ => []
  | fuel + 1, attempt =>
    match oracle attempt with
    | none => fetchPageAttempts oracle fuel (attempt + 1)
    | some r =>
      if r.Message = some "Working" then fetchPageAttempts oracle fuel (attempt + 1)
      else r.Facilities

/-- Embeds `fetch_facilities_for_sic` (epa_echo.py lines 36-116).  `initResp` is the
initiating query's `Results` envelope (`none`: the initial request raised,
giving `[]`).  `pollOracle` feeds the poll loop; `pageOracle page attempt`
feeds the page loop.  Returns the fetched facilities and the number of poll
attempts made. -/
def fetch_facilities_for_sic (initResp : Option EchoResults)
    (pollOracle : Nat → Option EchoResults)
    (pageOracle : Nat → Nat → Option EchoResults)
    (max_facilities : Nat) : List Facility × Nat :=
  match initResp with
  | none => ([], 0)
  | some data =>
    let rp := pollLoop pollOracle 13 data 0
    let results := rp.1
    let total_rows := results.QueryRows.getD 0
    let qid := results.QueryID.getD ""
    if total_rows = 0 ∨ qid = "" then ([], rp.2)
    else
      let pages_to_fetch := (min total_rows max_facilities + 99) / 100
      let all_facilities := ((List.range pages_to_fetch).map (· + 1)).foldl
        (fun acc page => acc ++ fetchPageAttempts (pageOracle page) 6 0) []
      (all_facilities.take max_facilities, rp.2)

/-! ## Ingestion orchestrator (src/scrape.py lines 23-63) -/

/-- Embeds `main()` of scrape.py, as far as the record count is concerned.  The seed
loader always succeeds and contributes `seedCount` (its module is loaded
outside any `try`).  Each network scraper's outcome is either a returned
count (`Except.ok`) or a raised exception (`Except.error`, which covers the
90-second SIGALRM `ScraperTimeout` as well): the surrounding `try/except`
swallows the exception and leaves the accumulated total unchanged. -/
def mainTotal (seedCount : Nat) (fsis : Except String Nat)
    (epa : Except String Nat) : Nat :=
  let total := 0 + seedCount
  let total := match fsis with
    | Except.ok c => total + c
    | Except.error _ => total
  match epa with
  | Except.ok c => total + c
  | Except.error _ => total

/-! ## Observation functions and concrete inputs used by the theorems -/

/-- A 10-character string of shape `YYYY-MM-DD` (digits with hyphens at
positions 4 and 7): the ISO date form the spec requires. -/
def isISODateShape (s : String) : Bool :=
  match s.toList with
  | [y1, y2, y3, y4, h1, m1, m2, h2, d1, d2] =>
    y1.isDigit && y2.isDigit && y3.isDigit && y4.isDigit && h1 = '-' &&
    m1.isDigit && m2.isDigit && h2 = '-' && d1.isDigit && d2.isDigit
  | _ => false

/-- How many payloads of the stream `rs` reach the normalize-and-upsert
branch of the per-recall loop (i.e. are not skipped by the seen-set) while
carrying a missing/empty raw `recall_number`, when processing starts in
state `st`. -/
def numMissingNormalized (st : ScrapeState) : List Recall → Nat
  | [] => 0
  | rc :: rs =>
    (if getNum rc = "" ∧ getNum rc ∉ st.seen then 1 else 0)
      + numMissingNormalized (processRecall st rc) rs

/-- A recall payload with every field absent. -/
def blankRc : Recall := ⟨none, none, none, none, none, none, none, none, none, none, none⟩

/-- A recall payload with classification "Class I" and an 8-digit date. -/
def rcClassI : Recall :=
  ⟨none, none, none, some "Class I", none, none, none, some "R-1", some "20230615", none, none⟩

/-- A 2100-character string, longer than the 2000-character description cap. -/
def bigText : String := String.mk (List.replicate 2100 'x')

/-- A recall payload whose assembled description exceeds 2000 characters. -/
def rcLong : Recall :=
  ⟨none, none, none, none, none, some bigText, none, some "R-2", none, none, none⟩

/-- An ECHO facility with a last-penalty date in the API's native
`MM/DD/YYYY` form and no other compliance signal. -/
def facPenaltyOnly : Facility :=
  ⟨some "Farm A", some "TX001", none, none, none, none, none, none, none, none,
   none, none, none, some "06/15/2023", none, none⟩

/-- An ECHO facility with no compliance signal at all. -/
def facNoSignal : Facility :=
  ⟨some "Farm B", some "TX002", none, none, none, none, none, none, none, none,
   none, none, none, none, none, none⟩

/-- An ECHO facility whose permit-status text makes the assembled
description longer than 2000 characters. -/
def facLongPermit : Facility :=
  ⟨some "Farm C", some "TX003", none, none, none, none, none, none, none, none,
   none, some bigText, none, some "01/01/2020", none, none⟩

/-- A violation row with a concrete natural key. -/
def rowA : Row :=
  { facility_name := "F", location := "", state := none, county := none,
    latitude := none, longitude := none, violation_type := "T", date := none,
    source := "S", source_id := some "S-1", description := "",
    severity := none, penalty_amount := none }

/-- A second row with the same (source, source_id) key as `rowA` but
different content. -/
def rowA2 : Row :=
  { rowA with facility_name := "F2" }

/-- An all-"Working" ECHO response envelope. -/
def workingResp : EchoResults := ⟨some "Working", some 500, some "QID1", []⟩

/-! ## Theorems -/

/-- The severity the recall normalizer stores is exactly the classification
lookup. -/
theorem recall_severity_eq (rc : Recall) :
    (recall_to_violation rc).severity = some (classSeverity (rc.classification.getD "")) := rfl

/-- C8: the recall normalizer assigns severity by direct lookup of the
classification field: "Class I" gives "High", "Class II" gives "Medium",
"Class III" gives "Low", any other (or missing) classification gives the
default "Medium", and the severity field is never absent. -/
theorem recall_class_severity :
    (∀ rc : Recall, rc.classification = some "Class I" →
        (recall_to_violation rc).severity = some "High") ∧
    (∀ rc : Recall, rc.classification = some "Class II" →
        (recall_to_violation rc).severity = some "Medium") ∧
    (∀ rc : Recall, rc.classification = some "Class III" →
        (recall_to_violation rc).severity = some "Low") ∧
    (∀ (rc : Recall) (c : String), rc.classification = some c →
        c ≠ "Class I" → c ≠ "Class II" → c ≠ "Class III" →
        (recall_to_violation rc).severity = some "Medium") ∧
    (∀ rc : Recall, rc.classification = none →
        (recall_to_violation rc).severity = some "Medium") ∧
    (∀ rc : Recall, ((recall_to_violation rc).severity).isSome = true) := by
  refine ⟨?_, ?_, ?_, ?_, ?_, ?_⟩
  · intro rc h; rw [recall_severity_eq, h]; rfl
  · intro rc h; rw [recall_severity_eq, h]; rfl
  · intro rc h; rw [recall_severity_eq, h]; rfl
  · intro rc c h h1 h2 h3
    rw [recall_severity_eq, h]
    simp [classSeverity, h1, h2, h3]
  · intro rc h; rw [recall_severity_eq, h]; rfl
  · intro rc; rw [recall_severity_eq]; rfl

/-- Witness for `recall_class_severity` at concrete payloads. -/
theorem recall_class_severity_witness :
    (recall_to_violation rcClassI).severity = some "High" ∧
    (recall_to_violation blankRc).severity = some "Medium" :=
  ⟨recall_class_severity.1 rcClassI rfl,
   recall_class_severity.2.2.2.2.1 blankRc rfl⟩

/-- C9: an exception from either network fetcher (including the 90-second
timeout) is caught: the run always completes, the accumulated count is
unchanged by a failing fetcher, and the reported total is at least the seed
loader's count. -/
theorem orchestrator_failure_isolation :
    ∀ (seedCount c : Nat) (fsis epa : Except String Nat) (e1 e2 : String),
      seedCount ≤ mainTotal seedCount fsis epa ∧
      mainTotal seedCount (Except.error e1) (Except.error e2) = seedCount ∧
      mainTotal seedCount (Except.error e1) (Except.ok c) = seedCount + c ∧
      mainTotal seedCount (Except.ok c) (Except.error e2) = seedCount + c := by
  intro seedCount c fsis epa e1 e2
  refine ⟨?_, by simp [mainTotal], by simp [mainTotal], by simp [mainTotal]⟩
  cases fsis <;> cases epa <;> (simp [mainTotal]; try omega)

/-- C3 (amended): the store's upsert is "insert if absent" on
(source, source_id) and total (no error on duplicates), but it reports no
insertion flag — its Python body returns `None` — and the recall scraper
counts every upsert call as inserted. -/
theorem upsert_insert_if_absent :
    (∀ (tbl : List Row) (r : Row), hasKey tbl r = false →
        upsert_violation tbl r = (tbl ++ [r], none)) ∧
    (∀ (tbl : List Row) (r : Row), hasKey tbl r = true →
        upsert_violation tbl r = (tbl, none)) ∧
    (∀ (st : ScrapeState) (rc : Recall), getNum rc ∉ st.seen →
        (processRecall st rc).inserted = st.inserted + 1) := by
  refine ⟨?_, ?_, ?_⟩
  · intro tbl r h; simp [upsert_violation, h]
  · intro tbl r h; simp [upsert_violation, h]
  · intro st rc h
    simp only [processRecall, getNum] at h ⊢
    rw [if_neg h]

/-- Witness for `upsert_insert_if_absent` at concrete inputs. -/
theorem upsert_insert_if_absent_witness :
    upsert_violation [] rowA = ([rowA], none) ∧
    upsert_violation [rowA] rowA2 = ([rowA], none) ∧
    (processRecall ⟨[], [], 0⟩ blankRc).inserted = 0 + 1 :=
  ⟨upsert_insert_if_absent.1 [] rowA (by decide),
   upsert_insert_if_absent.2.1 [rowA] rowA2 (by decide),
   upsert_insert_if_absent.2.2 ⟨[], [], 0⟩ blankRc (by decide)⟩

/-- C3 counterexample: inserting a record whose key is absent does insert
the row, but the call does not report `true` — `upsert_violation` returns no
boolean at all. -/
theorem upsert_returns_no_flag :
    (upsert_violation [] rowA).1 = [rowA] ∧ (upsert_violation [] rowA).2 ≠ some true := by
  refine ⟨by decide, by decide⟩

/-- The seen-set never shrinks across one processed recall. -/
theorem processRecall_seen_mono (st : ScrapeState) (rc : Recall) (x : String)
    (h : x ∈ st.seen) : x ∈ (processRecall st rc).seen := by
  simp only [processRecall]
  split
  · exact h
  · exact List.mem_cons_of_mem _ h

/-- After processing a recall, its raw number (with the `""` default) is in
the seen-set. -/
theorem processRecall_adds_seen (st : ScrapeState) (rc : Recall) :
    getNum rc ∈ (processRecall st rc).seen := by
  simp only [processRecall, getNum]
  split
  · assumption
  · exact List.mem_cons_self _ _

/-- Once `""` is in the seen-set, no later missing-number payload is
normalized. -/
theorem numMissingNormalized_zero (rs : List Recall) :
    ∀ st : ScrapeState, "" ∈ st.seen → numMissingNormalized st rs = 0 := by
  induction rs with
  | nil => intro st _; rfl
  | cons rc rs ih =>
    intro st h
    have h2 : ¬ (getNum rc = "" ∧ getNum rc ∉ st.seen) := by
      rintro ⟨he, hn⟩; rw [he] at hn; exact hn h
    simp only [numMissingNormalized, if_neg h2]
    rw [ih _ (processRecall_seen_mono _ _ _ h)]

/-- C10: the recall loop deduplicates on the raw recall_number before
normalization; a missing number is treated as `""` and entered into the
seen-set, so a payload whose number is already seen is skipped with the
whole state unchanged, and at most one missing-number payload per run is
normalized and upserted. -/
theorem fsis_seen_set_dedup :
    (∀ (st : ScrapeState) (rc : Recall), getNum rc ∈ st.seen →
        processRecall st rc = st) ∧
    (∀ (st : ScrapeState) (rc : Recall), rc.recall_number = none →
        getNum rc = "" ∧ "" ∈ (processRecall st rc).seen) ∧
    (∀ (st : ScrapeState) (rs : List Recall), numMissingNormalized st rs ≤ 1) := by
  refine ⟨?_, ?_, ?_⟩
  · intro st rc h
    simp only [processRecall, getNum] at h ⊢
    rw [if_pos h]
  · intro st rc h
    have hg : getNum rc = "" := by rw [getNum, h]; rfl
    refine ⟨hg, ?_⟩
    have := processRecall_adds_seen st rc
    rwa [hg] at this
  · intro st rs
    induction rs generalizing st with
    | nil => simp [numMissingNormalized]
    | cons rc rs ih =>
      by_cases hc : getNum rc = "" ∧ getNum rc ∉ st.seen
      · simp only [numMissingNormalized, if_pos hc]
        have hz : numMissingNormalized (processRecall st rc) rs = 0 := by
          refine numMissingNormalized_zero rs _ ?_
          have := processRecall_adds_seen st rc
          rwa [hc.1] at this
        omega
      · simp only [numMissingNormalized, if_neg hc]
        have := ih (processRecall st rc)
        omega

/-- Witness for `fsis_seen_set_dedup` at concrete inputs. -/
theorem fsis_seen_set_dedup_witness :
    processRecall ⟨[""], [], 0⟩ blankRc = ⟨[""], [], 0⟩ ∧
    (getNum blankRc = "" ∧ "" ∈ (processRecall ⟨[], [], 0⟩ blankRc).seen) ∧
    numMissingNormalized ⟨[], [], 0⟩ [blankRc, blankRc] ≤ 1 :=
  ⟨fsis_seen_set_dedup.1 ⟨[""], [], 0⟩ blankRc (by decide),
   fsis_seen_set_dedup.2.1 ⟨[], [], 0⟩ blankRc rfl,
   fsis_seen_set_dedup.2.2 ⟨[], [], 0⟩ [blankRc, blankRc]⟩

/-- Concatenation adds string lengths. -/
theorem strLength_append (a b : String) : (a ++ b).length = a.length + b.length := by
  rcases a with ⟨la⟩
  rcases b with ⟨lb⟩
  show (la ++ lb).length = la.length + lb.length
  exact List.length_append la lb

/-- A length-8 character list is eight explicit characters. -/
theorem exists_eight {l : List Char} (h : l.length = 8) :
    ∃ a b c d e f g i, l = [a, b, c, d, e, f, g, i] := by
  rcases l with _ | ⟨a, l⟩; · simp at h
  rcases l with _ | ⟨b, l⟩; · simp at h
  rcases l with _ | ⟨c, l⟩; · simp at h
  rcases l with _ | ⟨d, l⟩; · simp at h
  rcases l with _ | ⟨e, l⟩; · simp at h
  rcases l with _ | ⟨f, l⟩; · simp at h
  rcases l with _ | ⟨g, l⟩; · simp at h
  rcases l with _ | ⟨i, l⟩; · simp at h
  rcases l with _ | ⟨j, l⟩
  · exact ⟨a, b, c, d, e, f, g, i, rfl⟩
  · simp at h

/-- Reformatting an 8-digit string yields a string of ISO `YYYY-MM-DD`
shape. -/
theorem isoizeDate_iso (d : String) (hlen : d.length = 8)
    (hdig : d.toList.all Char.isDigit = true) : isISODateShape (isoizeDate d) = true := by
  have hl : d.toList.length = 8 := hlen
  obtain ⟨a, b, c, e, f, g, i, j, hte⟩ := exists_eight hl
  rw [hte] at hdig
  simp only [List.all_cons, List.all_nil, Bool.and_eq_true, Bool.and_true] at hdig
  have hiso : isoizeDate d = String.mk [a, b, c, e, '-', f, g, '-', i, j] := by
    simp only [isoizeDate]
    rw [hte]
    rfl
  rw [hiso]
  simp only [isISODateShape, String.toList]
  obtain ⟨ha, hb, hc, he, hf, hg, hi, hj⟩ := hdig
  simp [ha, hb, hc, he, hf, hg, hi, hj]

/-- The date field the recall normalizer stores. -/
theorem recall_date_eq (rc : Recall) :
    (recall_to_violation rc).date =
      if rc.recall_initiation_date.getD "" ≠ "" ∧ (rc.recall_initiation_date.getD "").length = 8
      then some (isoizeDate (rc.recall_initiation_date.getD ""))
      else none := rfl

/-- The description field the recall normalizer stores. -/
theorem recall_description_eq (rc : Recall) :
    (recall_to_violation rc).description =
      if (assembleRecallDesc rc).length > 2000
      then String.mk ((assembleRecallDesc rc).toList.take 1997) ++ "..."
      else assembleRecallDesc rc := rfl

/-- C2 counterexample: a facility whose penalty date is in the API's native
`MM/DD/YYYY` form is stored with that date verbatim, which is not of ISO
`YYYY-MM-DD` shape. -/
theorem echo_date_not_iso :
    ((facility_to_violation facPenaltyOnly "0211").map fun v => v.date)
        = some (some "06/15/2023") ∧
    isISODateShape "06/15/2023" = false := by
  exact ⟨by decide, by decide⟩

/-- C2 (amended): the recall normalizer's date, built from an 8-character
raw initiation date, is in ISO `YYYY-MM-DD` shape whenever the raw date is
an 8-digit string; the facility normalizer performs no conversion at all —
it stores the raw last-penalty date if nonempty, else the raw
last-inspection date if nonempty, else no date. -/
theorem date_normalization_amended :
    (∀ (rc : Recall) (d : String), rc.recall_initiation_date = some d →
        d.length = 8 → d.toList.all Char.isDigit = true →
        (recall_to_violation rc).date = some (isoizeDate d) ∧
        isISODateShape (isoizeDate d) = true) ∧
    (∀ (f : Facility) (sic : String) (v : Row), facility_to_violation f sic = some v →
        v.date = (if f.CWPDateLastPenalty.getD "" ≠ ""
          then some (f.CWPDateLastPenalty.getD "")
          else if f.CWPDateLastInspection.getD "" ≠ ""
          then some (f.CWPDateLastInspection.getD "")
          else none)) := by
  constructor
  · intro rc d hd hlen hdig
    have hne : d ≠ "" := by
      intro he; rw [he] at hlen; simp [String.length] at hlen
    have hdate := recall_date_eq rc
    rw [hd] at hdate
    simp only [Option.getD_some] at hdate
    rw [hdate, if_pos ⟨hne, hlen⟩]
    exact ⟨rfl, isoizeDate_iso d hlen hdig⟩
  · intro f sic v hv
    unfold facility_to_violation at hv
    split at hv
    · exact absurd hv (by simp)
    · injection hv with h
      subst h
      rfl

/-- Witness for `date_normalization_amended` at concrete payloads. -/
theorem date_normalization_amended_witness :
    ((recall_to_violation rcClassI).date = some (isoizeDate "20230615") ∧
      isISODateShape (isoizeDate "20230615") = true) ∧
    ((facility_to_violation facPenaltyOnly "0211").map (fun v => v.date)
        = some (some "06/15/2023")) :=
  ⟨date_normalization_amended.1 rcClassI "20230615" rfl (by decide) (by decide),
   by
    have := date_normalization_amended.2 facPenaltyOnly "0211"
    decide⟩

/-- C5 counterexample: the facility normalizer applies no length cap — a
2100-character permit-status text yields a stored description of 2148
characters. -/
theorem echo_description_uncapped :
    ((facility_to_violation facLongPermit "0211").map fun v => v.description.length)
        = some 2148 ∧ 2000 < 2148 := by
  have hv : ((facility_to_violation facLongPermit "0211").map fun v => v.description.length)
      = some (("CAFO Type: Beef Cattle Feedlots" ++ ". "
          ++ ("Permit Status: " ++ bigText)).length) := by
    rw [facility_to_violation, if_neg (by decide)]
    rfl
  have hb : bigText.length = (List.replicate 2100 'x').length := rfl
  rw [List.length_replicate] at hb
  rw [hv, strLength_append, strLength_append, strLength_append]
  have h31 : ("CAFO Type: Beef Cattle Feedlots").length = 31 := rfl
  have h2 : (". ").length = 2 := rfl
  have h15 : ("Permit Status: ").length = 15 := rfl
  refine ⟨?_, by omega⟩
  rw [h31, h2, h15, hb]

/-- C5 (amended): every recall-normalizer description is at most 2000
characters — an assembled description longer than 2000 characters is
replaced by its first 1997 characters plus a 3-character ellipsis, total
exactly 2000 — but the facility normalizer applies no cap, so its
descriptions can exceed 2000 characters. -/
theorem recall_description_capped :
    (∀ rc : Recall, (recall_to_violation rc).description.length ≤ 2000) ∧
    (∀ rc : Recall, 2000 < (assembleRecallDesc rc).length →
        (recall_to_violation rc).description
            = String.mk ((assembleRecallDesc rc).toList.take 1997) ++ "..." ∧
        (recall_to_violation rc).description.length = 2000) := by
  have key : ∀ rc : Recall, 2000 < (assembleRecallDesc rc).length →
      (recall_to_violation rc).description
          = String.mk ((assembleRecallDesc rc).toList.take 1997) ++ "..." ∧
      (recall_to_violation rc).description.length = 2000 := by
    intro rc h
    have hdesc := recall_description_eq rc
    rw [if_pos h] at hdesc
    refine ⟨hdesc, ?_⟩
    rw [hdesc, strLength_append]
    have h1 : ((assembleRecallDesc rc).toList.take 1997).length = 1997 := by
      rw [List.length_take]
      have h2 : (assembleRecallDesc rc).toList.length = (assembleRecallDesc rc).length := rfl
      omega
    have h3 : (String.mk ((assembleRecallDesc rc).toList.take 1997)).length
        = ((assembleRecallDesc rc).toList.take 1997).length := rfl
    rw [h3, h1]
    rfl
  refine ⟨?_, key⟩
  intro rc
  by_cases h : 2000 < (assembleRecallDesc rc).length
  · rw [(key rc h).2]
  · have hdesc := recall_description_eq rc
    rw [if_neg h] at hdesc
    rw [hdesc]
    omega

/-- Witness for `recall_description_capped` at a concrete payload. -/
theorem recall_description_capped_witness :
    (recall_to_violation rcLong).description.length = 2000 := by
  have he : assembleRecallDesc rcLong = "Product: " ++ bigText := rfl
  have hb : bigText.length = (List.replicate 2100 'x').length := rfl
  rw [List.length_replicate] at hb
  have h9 : ("Product: ").length = 9 := rfl
  have h : 2000 < (assembleRecallDesc rcLong).length := by
    rw [he, strLength_append]
    omega
  exact (recall_description_capped.2 rcLong h).2

/-- C4: with zero parsed quarters-in-noncompliance, no SNC flag and no
"violation" substring in the compliance status, the facility normalizer
drops the record when the last-penalty date is absent, and stores severity
"Low" when it is present. -/
theorem echo_low_severity_drop_rule (f : Facility) (sic : String)
    (hq : echoQtrs f = 0)
    (hs : containsSub (upperStr (f.CWPSNCStatus.getD "")) "S" = false)
    (hc : containsSub (lowerStr (f.CWPComplianceStatus.getD "")) "violation" = false) :
    (f.CWPDateLastPenalty.getD "" = "" → facility_to_violation f sic = none) ∧
    (f.CWPDateLastPenalty.getD "" ≠ "" →
      (facility_to_violation f sic).map (fun v => v.severity) = some (some "Low")) := by
  have hsev : echoSeverity f = "Low" := by
    simp only [echoSeverity]
    rw [if_neg, if_neg]
    · rintro ⟨-, hxx⟩; rw [hc] at hxx; exact Bool.noConfusion hxx
    · rintro ⟨-, hxx⟩; rw [hs] at hxx; exact Bool.noConfusion hxx
  constructor
  · intro hlp
    unfold facility_to_violation
    rw [if_pos ⟨hq, hsev, hlp⟩]
  · intro hlp
    unfold facility_to_violation
    rw [if_neg fun hcon => hlp hcon.2.2]
    simp [hsev]

/-- Witness for `echo_low_severity_drop_rule` at concrete payloads. -/
theorem echo_low_severity_drop_rule_witness :
    facility_to_violation facNoSignal "0211" = none ∧
    (facility_to_violation facPenaltyOnly "0211").map (fun v => v.severity)
        = some (some "Low") :=
  ⟨(echo_low_severity_drop_rule facNoSignal "0211"
      (by decide) (by decide) (by decide)).1 (by decide),
   (echo_low_severity_drop_rule facPenaltyOnly "0211"
      (by decide) (by decide) (by decide)).2 (by decide)⟩

/-! ### Store idempotence lemmas -/

/-- A key present in the table stays present across any upsert. -/
theorem hasKey_upsertTable_mono (tbl : List Row) (r s : Row)
    (h : hasKey tbl r = true) : hasKey (upsertTable tbl s) r = true := by
  unfold upsertTable upsert_violation
  split
  · exact h
  · simp only [hasKey, List.any_append] at h ⊢
    rw [h]
    rfl

/-- A key present in the table stays present across any batch of upserts. -/
theorem hasKey_upsertList_mono (rs : List Row) (tbl : List Row) (r : Row)
    (h : hasKey tbl r = true) : hasKey (upsertList tbl rs) r = true := by
  induction rs generalizing tbl with
  | nil => exact h
  | cons s rs ih => exact ih (upsertTable tbl s) (hasKey_upsertTable_mono tbl r s h)

/-- After upserting a record with a non-NULL source_id, its key is in the
table. -/
theorem hasKey_upsertTable_self (tbl : List Row) (r : Row)
    (hn : r.source_id ≠ none) : hasKey (upsertTable tbl r) r = true := by
  unfold upsertTable upsert_violation
  split
  · assumption
  · simp [hasKey, List.any_append, dupKey, hn]

/-- Every batch member with a non-NULL source_id has its key in the table
after the batch is upserted. -/
theorem hasKey_upsertList_mem (rs : List Row) (tbl : List Row) (r : Row)
    (hmem : r ∈ rs) (hn : r.source_id ≠ none) :
    hasKey (upsertList tbl rs) r = true := by
  induction rs generalizing tbl with
  | nil => cases hmem
  | cons s rs ih =>
    rcases List.mem_cons.mp hmem with h | h
    · subst h
      exact hasKey_upsertList_mono rs _ r (hasKey_upsertTable_self tbl r hn)
    · exact ih (upsertTable tbl s) h

/-- Upserting a batch whose every key is already present is a no-op. -/
theorem upsertList_noop (rs : List Row) (tbl : List Row)
    (h : ∀ r ∈ rs, hasKey tbl r = true) : upsertList tbl rs = tbl := by
  induction rs generalizing tbl with
  | nil => rfl
  | cons s rs ih =>
    have hs : upsertTable tbl s = tbl := by
      unfold upsertTable upsert_violation
      rw [if_pos (h s (List.mem_cons_self s rs))]
    show upsertList (upsertTable tbl s) rs = tbl
    rw [hs]
    exact ih tbl fun r hr => h r (List.mem_cons_of_mem s hr)

/-- An upsert preserves the no-duplicate-key invariant. -/
theorem noDupKey_upsertTable (tbl : List Row) (r : Row) (h : NoDupKey tbl) :
    NoDupKey (upsertTable tbl r) := by
  unfold upsertTable upsert_violation
  split
  · exact h
  · next hk =>
    rw [NoDupKey, List.pairwise_append]
    refine ⟨h, List.pairwise_singleton _ _, ?_⟩
    intro x hx y hy
    rw [List.mem_singleton] at hy
    subst hy
    intro hd
    apply hk
    simp only [hasKey, List.any_eq_true, decide_eq_true_eq]
    exact ⟨x, hx, hd⟩

/-- A batch of upserts preserves the no-duplicate-key invariant. -/
theorem noDupKey_upsertList (rs : List Row) (tbl : List Row) (h : NoDupKey tbl) :
    NoDupKey (upsertList tbl rs) := by
  induction rs generalizing tbl with
  | nil => exact h
  | cons s rs ih => exact ih (upsertTable tbl s) (noDupKey_upsertTable tbl s h)

/-- Membership in an upserted table comes from the table or the batch. -/
theorem mem_upsertList (rs : List Row) (tbl : List Row) (x : Row)
    (h : x ∈ upsertList tbl rs) : x ∈ tbl ∨ x ∈ rs := by
  induction rs generalizing tbl with
  | nil => exact Or.inl h
  | cons s rs ih =>
    rcases ih (upsertTable tbl s) h with h1 | h1
    · unfold upsertTable upsert_violation at h1
      split at h1
      · exact Or.inl h1
      · rcases List.mem_append.mp h1 with h2 | h2
        · exact Or.inl h2
        · rw [List.mem_singleton] at h2
          exact Or.inr (h2 ▸ List.mem_cons_self s rs)
    · exact Or.inr (List.mem_cons_of_mem s h1)

/-! ### Pagination lemmas (C7) -/

/-- Reaching the cap stops the pagination loop without a request. -/
theorem fsisQueryLoop_stopCap (oracle : Nat → List Recall) (cap fuel skip : Nat)
    (st : ScrapeState) (offs : List Nat) (h : ¬ skip < cap) :
    fsisQueryLoop oracle cap (fuel + 1) skip st offs = (st, offs) := by
  rw [fsisQueryLoop, if_neg h]

/-- An empty page stops the pagination loop after its request. -/
theorem fsisQueryLoop_stopEmpty (oracle : Nat → List Recall) (cap fuel skip : Nat)
    (st : ScrapeState) (offs : List Nat) (h1 : skip < cap) (h2 : oracle skip = []) :
    fsisQueryLoop oracle cap (fuel + 1) skip st offs = (st, offs ++ [skip]) := by
  rw [fsisQueryLoop, if_pos h1]
  dsimp only
  rw [if_pos h2]

/-- A page of fewer than 100 results is processed and stops the loop. -/
theorem fsisQueryLoop_stopShort (oracle : Nat → List Recall) (cap fuel skip : Nat)
    (st : ScrapeState) (offs : List Nat) (h1 : skip < cap) (h2 : oracle skip ≠ [])
    (h3 : (oracle skip).length < 100) :
    fsisQueryLoop oracle cap (fuel + 1) skip st offs
      = (processResults st (oracle skip), offs ++ [skip]) := by
  rw [fsisQueryLoop, if_pos h1]
  dsimp only
  rw [if_neg h2, if_pos h3]

/-- A full page is processed and the loop continues at the next offset. -/
theorem fsisQueryLoop_step (oracle : Nat → List Recall) (cap fuel skip : Nat)
    (st : ScrapeState) (offs : List Nat) (h1 : skip < cap) (h2 : oracle skip ≠ [])
    (h3 : ¬ (oracle skip).length < 100) :
    fsisQueryLoop oracle cap (fuel + 1) skip st offs
      = fsisQueryLoop oracle cap fuel (skip + (oracle skip).length)
          (processResults st (oracle skip)) (offs ++ [skip]) := by
  rw [fsisQueryLoop, if_pos h1]
  dsimp only
  rw [if_neg h2, if_neg h3]


/-- Two states with the same seen-set process one recall identically: the
same rows (all with non-NULL keys) are upserted and the same seen-set
results, independently of the tables. -/
theorem sim_processRecall (rc : Recall) (st1 st2 : ScrapeState)
    (h : st1.seen = st2.seen) :
    ∃ (rows : List Row) (newSeen : List String),
      (∀ r ∈ rows, r.source_id ≠ none) ∧
      processRecall st1 rc
        = ⟨newSeen, upsertList st1.table rows, st1.inserted + rows.length⟩ ∧
      processRecall st2 rc
        = ⟨newSeen, upsertList st2.table rows, st2.inserted + rows.length⟩ := by
  obtain ⟨s1, t1, n1⟩ := st1
  obtain ⟨s2, t2, n2⟩ := st2
  simp only at h
  subst h
  by_cases hm : rc.recall_number.getD "" ∈ s1
  · refine ⟨[], s1, by simp, ?_, ?_⟩ <;>
      simp [processRecall, hm, upsertList]
  · refine ⟨[recall_to_violation rc], rc.recall_number.getD "" :: s1, ?_, ?_, ?_⟩
    · intro r hr
      rw [List.mem_singleton] at hr
      subst hr
      simp [recall_to_violation]
    · simp [processRecall, hm, upsertList, upsertTable]
    · simp [processRecall, hm, upsertList, upsertTable]

/-- Two states with the same seen-set process a page of recalls
identically. -/
theorem sim_processResults (rcs : List Recall) :
    ∀ (st1 st2 : ScrapeState), st1.seen = st2.seen →
    ∃ (rows : List Row) (newSeen : List String),
      (∀ r ∈ rows, r.source_id ≠ none) ∧
      processResults st1 rcs
        = ⟨newSeen, upsertList st1.table rows, st1.inserted + rows.length⟩ ∧
      processResults st2 rcs
        = ⟨newSeen, upsertList st2.table rows, st2.inserted + rows.length⟩ := by
  induction rcs with
  | nil =>
    intro st1 st2 h
    refine ⟨[], st1.seen, by simp, ?_, ?_⟩
    · cases st1; simp [processResults, upsertList]
    · rw [h]; cases st2; simp [processResults, upsertList]
  | cons rc rcs ih =>
    intro st1 st2 h
    obtain ⟨rows1, ns1, hn1, he1, he2⟩ := sim_processRecall rc st1 st2 h
    obtain ⟨rows2, ns2, hn2, hf1, hf2⟩ :=
      ih (processRecall st1 rc) (processRecall st2 rc) (by rw [he1, he2])
    refine ⟨rows1 ++ rows2, ns2, ?_, ?_, ?_⟩
    · intro r hr
      rcases List.mem_append.mp hr with hr | hr
      · exact hn1 r hr
      · exact hn2 r hr
    · show processResults (processRecall st1 rc) rcs = _
      rw [hf1, he1]
      simp [upsertList, List.foldl_append, List.length_append]
      omega
    · show processResults (processRecall st2 rc) rcs = _
      rw [hf2, he2]
      simp [upsertList, List.foldl_append, List.length_append]
      omega

/-- Two states with the same seen-set run one paginated query identically:
same upserted rows, same final seen-set, same requested offsets. -/
theorem sim_fsisQueryLoop (oracle : Nat → List Recall) (cap : Nat) :
    ∀ (fuel skip : Nat) (st1 st2 : ScrapeState) (offs : List Nat),
      st1.seen = st2.seen →
    ∃ (rows : List Row) (newSeen : List String) (offsOut : List Nat),
      (∀ r ∈ rows, r.source_id ≠ none) ∧
      fsisQueryLoop oracle cap fuel skip st1 offs
        = (⟨newSeen, upsertList st1.table rows, st1.inserted + rows.length⟩, offsOut) ∧
      fsisQueryLoop oracle cap fuel skip st2 offs
        = (⟨newSeen, upsertList st2.table rows, st2.inserted + rows.length⟩, offsOut) := by
  intro fuel
  induction fuel with
  | zero =>
    intro skip st1 st2 offs h
    refine ⟨[], st1.seen, offs, by simp, ?_, ?_⟩
    · cases st1; simp [fsisQueryLoop, upsertList]
    · rw [h]; cases st2; simp [fsisQueryLoop, upsertList]
  | succ fuel ih =>
    intro skip st1 st2 offs h
    by_cases hc : skip < cap
    · by_cases he : oracle skip = []
      · rw [fsisQueryLoop_stopEmpty oracle cap fuel skip st1 offs hc he,
          fsisQueryLoop_stopEmpty oracle cap fuel skip st2 offs hc he]
        refine ⟨[], st1.seen, offs ++ [skip], by simp, ?_, ?_⟩
        · cases st1; simp [upsertList]
        · rw [h]; cases st2; simp [upsertList]
      · by_cases hs : (oracle skip).length < 100
        · rw [fsisQueryLoop_stopShort oracle cap fuel skip st1 offs hc he hs,
            fsisQueryLoop_stopShort oracle cap fuel skip st2 offs hc he hs]
          obtain ⟨rows, ns, hn, h1, h2⟩ := sim_processResults (oracle skip) st1 st2 h
          exact ⟨rows, ns, offs ++ [skip], hn, by rw [h1], by rw [h2]⟩
        · rw [fsisQueryLoop_step oracle cap fuel skip st1 offs hc he hs,
            fsisQueryLoop_step oracle cap fuel skip st2 offs hc he hs]
          obtain ⟨rows1, ns1, hn1, he1, he2⟩ := sim_processResults (oracle skip) st1 st2 h
          obtain ⟨rows2, ns2, offsOut, hn2, hf1, hf2⟩ :=
            ih (skip + (oracle skip).length) (processResults st1 (oracle skip))
              (processResults st2 (oracle skip)) (offs ++ [skip]) (by rw [he1, he2])
          refine ⟨rows1 ++ rows2, ns2, offsOut, ?_, ?_, ?_⟩
          · intro r hr
            rcases List.mem_append.mp hr with hr | hr
            · exact hn1 r hr
            · exact hn2 r hr
          · rw [hf1, he1]
            simp [upsertList, List.foldl_append, List.length_append]
            omega
          · rw [hf2, he2]
            simp [upsertList, List.foldl_append, List.length_append]
            omega
    · rw [fsisQueryLoop_stopCap oracle cap fuel skip st1 offs hc,
        fsisQueryLoop_stopCap oracle cap fuel skip st2 offs hc]
      refine ⟨[], st1.seen, offs, by simp, ?_, ?_⟩
      · cases st1; simp [upsertList]
      · rw [h]; cases st2; simp [upsertList]

/-- Two states with the same seen-set run the whole recall scrape
identically: same upserted rows and same final seen-set. -/
theorem sim_scrape_fsis (oracles : List (Nat → List Recall)) (cap : Nat) :
    ∀ (st1 st2 : ScrapeState), st1.seen = st2.seen →
    ∃ (rows : List Row) (newSeen : List String),
      (∀ r ∈ rows, r.source_id ≠ none) ∧
      scrape_fsis_recalls oracles cap st1
        = ⟨newSeen, upsertList st1.table rows, st1.inserted + rows.length⟩ ∧
      scrape_fsis_recalls oracles cap st2
        = ⟨newSeen, upsertList st2.table rows, st2.inserted + rows.length⟩ := by
  induction oracles with
  | nil =>
    intro st1 st2 h
    refine ⟨[], st1.seen, by simp, ?_, ?_⟩
    · cases st1; simp [scrape_fsis_recalls, upsertList]
    · rw [h]; cases st2; simp [scrape_fsis_recalls, upsertList]
  | cons oracle oracles ih =>
    intro st1 st2 h
    obtain ⟨rows1, ns1, offsOut, hn1, he1, he2⟩ :=
      sim_fsisQueryLoop oracle cap (cap + 1) 0 st1 st2 [] h
    obtain ⟨rows2, ns2, hn2, hf1, hf2⟩ :=
      ih (fsisQuery oracle cap st1).1 (fsisQuery oracle cap st2).1
        (by unfold fsisQuery; rw [he1, he2])
    refine ⟨rows1 ++ rows2, ns2, ?_, ?_, ?_⟩
    · intro r hr
      rcases List.mem_append.mp hr with hr | hr
      · exact hn1 r hr
      · exact hn2 r hr
    · show scrape_fsis_recalls oracles cap (fsisQuery oracle cap st1).1 = _
      rw [hf1]
      unfold fsisQuery
      rw [he1]
      simp [upsertList, List.foldl_append, List.length_append]
      omega
    · show scrape_fsis_recalls oracles cap (fsisQuery oracle cap st2).1 = _
      rw [hf2]
      unfold fsisQuery
      rw [he2]
      simp [upsertList, List.foldl_append, List.length_append]
      omega

/-- C1: the store is idempotent on the (source, source_id) natural key.
For records with a non-NULL source_id (which both normalizers always
produce): upserting a record whose key already exists leaves the table
unchanged; upserts preserve the no-duplicate-key invariant; a table built
from such records has no two rows with the same (source, source_id) pair;
re-upserting the same batch a second time changes nothing; and running the
whole recall ingestion a second time against identical upstream responses
(same oracles, fresh seen-set) leaves the stored table — hence its row
count — unchanged. -/
theorem store_upsert_idempotent :
    (∀ (tbl : List Row) (r x : Row), x ∈ tbl → x.source = r.source →
        x.source_id = r.source_id → r.source_id ≠ none →
        upsert_violation tbl r = (tbl, none)) ∧
    (∀ (tbl : List Row) (r : Row), NoDupKey tbl → NoDupKey (upsertTable tbl r)) ∧
    (∀ rs : List Row, (∀ r ∈ rs, r.source_id ≠ none) →
        (upsertList [] rs).Pairwise fun x y =>
          ¬ (x.source = y.source ∧ x.source_id = y.source_id)) ∧
    (∀ (tbl : List Row) (rs : List Row), (∀ r ∈ rs, r.source_id ≠ none) →
        upsertList (upsertList tbl rs) rs = upsertList tbl rs) ∧
    (∀ rc : Recall, (recall_to_violation rc).source_id ≠ none) ∧
    (∀ (f : Facility) (sic : String) (v : Row), facility_to_violation f sic = some v →
        v.source_id ≠ none) ∧
    (∀ (oracles : List (Nat → List Recall)) (cap : Nat) (tbl : List Row),
        (scrape_fsis_recalls oracles cap
            ⟨[], (scrape_fsis_recalls oracles cap ⟨[], tbl, 0⟩).table, 0⟩).table
          = (scrape_fsis_recalls oracles cap ⟨[], tbl, 0⟩).table) := by
  refine ⟨?_, ?_, ?_, ?_, ?_, ?_, ?_⟩
  · intro tbl r x hx hsrc hid hn
    unfold upsert_violation
    rw [if_pos]
    simp only [hasKey, List.any_eq_true, decide_eq_true_eq]
    exact ⟨x, hx, hsrc, hid, hn⟩
  · exact noDupKey_upsertTable
  · intro rs hn
    have hnd : NoDupKey (upsertList [] rs) := noDupKey_upsertList rs [] List.Pairwise.nil
    refine hnd.imp_of_mem ?_
    intro a b ha hb hR
    rintro ⟨hsrc, hid⟩
    have hbmem : b ∈ rs := by
      rcases mem_upsertList rs [] b hb with h | h
      · cases h
      · exact h
    exact hR ⟨hsrc, hid, hn b hbmem⟩
  · intro tbl rs hn
    exact upsertList_noop rs _ fun r hr => hasKey_upsertList_mem rs tbl r hr (hn r hr)
  · intro rc
    simp [recall_to_violation]
  · intro f sic v hv
    unfold facility_to_violation at hv
    split at hv
    · exact absurd hv (by simp)
    · injection hv with h
      subst h
      simp
  · intro oracles cap tbl
    obtain ⟨rows, ns, hk, h1, h2⟩ :=
      sim_scrape_fsis oracles cap ⟨[], tbl, 0⟩
        ⟨[], (scrape_fsis_recalls oracles cap ⟨[], tbl, 0⟩).table, 0⟩ rfl
    rw [h1] at h2 ⊢
    rw [h2]
    exact upsertList_noop rows (upsertList tbl rows)
      fun r hr => hasKey_upsertList_mem rows tbl r hr (hk r hr)

/-- Witness for `store_upsert_idempotent` at concrete inputs. -/
theorem store_upsert_idempotent_witness :
    upsert_violation [rowA] rowA2 = ([rowA], none) ∧
    upsertList (upsertList [] [rowA, rowA2]) [rowA, rowA2] = upsertList [] [rowA, rowA2] ∧
    (recall_to_violation blankRc).source_id ≠ none :=
  ⟨store_upsert_idempotent.1 [rowA] rowA2 rowA (by decide) (by decide) (by decide) (by decide),
   store_upsert_idempotent.2.2.2.1 [] [rowA, rowA2] (by decide),
   store_upsert_idempotent.2.2.2.2.1 blankRc⟩

/-! ### Poll bounding lemmas (C6) -/

/-- If every poll response still says "Working", the poll loop runs to
exactly 12 attempts and ends on a "Working" envelope. -/
theorem pollLoop_all_working (oracle : Nat → Option EchoResults)
    (hw : ∀ n r, oracle n = some r → r.Message = some "Working") :
    ∀ (fuel : Nat) (results : EchoResults) (attempts : Nat),
      results.Message = some "Working" → attempts ≤ 12 → 12 - attempts < fuel →
      (pollLoop oracle fuel results attempts).2 = 12 ∧
      (pollLoop oracle fuel results attempts).1.Message = some "Working" := by
  intro fuel
  induction fuel with
  | zero => intro results attempts _ _ hfuel; omega
  | succ fuel ih =>
    intro results attempts hmsg hle hfuel
    by_cases hlt : attempts < 12
    · rw [pollLoop, if_pos ⟨hmsg, hlt⟩]
      cases horacle : oracle (attempts + 1) with
      | some r => exact ih r (attempts + 1) (hw _ r horacle) (by omega) (by omega)
      | none => exact ih results (attempts + 1) hmsg (by omega) (by omega)
    · have h12 : attempts = 12 := by omega
      subst h12
      rw [pollLoop, if_neg (fun hcon => by omega)]
      exact ⟨rfl, hmsg⟩

/-- If every page response still says "Working", the page retry loop gives
up with no facilities. -/
theorem fetchPageAttempts_all_working (oracle : Nat → Option EchoResults)
    (hw : ∀ a r, oracle a = some r → r.Message = some "Working") :
    ∀ (fuel attempt : Nat), fetchPageAttempts oracle fuel attempt = [] := by
  intro fuel
  induction fuel with
  | zero => intro attempt; rfl
  | succ fuel ih =>
    intro attempt
    rw [fetchPageAttempts]
    cases horacle : oracle attempt with
    | none => exact ih (attempt + 1)
    | some r =>
      show (if r.Message = some "Working"
        then fetchPageAttempts oracle fuel (attempt + 1) else r.Facilities) = []
      rw [if_pos (hw _ r horacle)]
      exact ih (attempt + 1)

/-- Appending all-empty page results leaves the accumulator unchanged. -/
theorem foldl_append_nil {α β : Type} (g : β → List α) (pages : List β)
    (hg : ∀ p, g p = []) :
    ∀ acc : List α, pages.foldl (fun acc page => acc ++ g page) acc = acc := by
  induction pages with
  | nil => intro acc; rfl
  | cons p pages ih =>
    intro acc
    show pages.foldl _ (acc ++ g p) = acc
    rw [hg p, List.append_nil]
    exact ih acc

/-- C6: if the initiating query and every poll and page response report
"Working", `fetch_facilities_for_sic` terminates after exactly 12 poll
attempts (re-issues of the initiating query) and the category yields zero
facilities. -/
theorem echo_poll_bounded (r0 : EchoResults)
    (pollOracle : Nat → Option EchoResults)
    (pageOracle : Nat → Nat → Option EchoResults) (maxF : Nat)
    (h0 : r0.Message = some "Working")
    (h1 : ∀ n r, pollOracle n = some r → r.Message = some "Working")
    (h2 : ∀ p a r, pageOracle p a = some r → r.Message = some "Working") :
    fetch_facilities_for_sic (some r0) pollOracle pageOracle maxF = ([], 12) := by
  have hpoll := pollLoop_all_working pollOracle h1 13 r0 0 h0 (by omega) (by omega)
  unfold fetch_facilities_for_sic
  dsimp only
  split
  · rw [Prod.mk.injEq]
    exact ⟨rfl, hpoll.1⟩
  · rw [Prod.mk.injEq]
    refine ⟨?_, hpoll.1⟩
    rw [foldl_append_nil (fun page => fetchPageAttempts (pageOracle page) 6 0) _
      (fun p => fetchPageAttempts_all_working (pageOracle p) (h2 p) 6 0)]
    exact List.take_nil

/-- Witness for `echo_poll_bounded` with a constant "Working" oracle. -/
theorem echo_poll_bounded_witness :
    fetch_facilities_for_sic (some workingResp) (fun _ => some workingResp)
      (fun _ _ => some workingResp) 200 = ([], 12) :=
  echo_poll_bounded workingResp (fun _ => some workingResp)
    (fun _ _ => some workingResp) 200 rfl
    (fun n r h => by cases h; rfl)
    (fun p a r h => by cases h; rfl)

/-- An index with a successor in `l ++ [x]` indexes into `l`. -/
theorem get?_append_pair {l : List Nat} {x i s1 s2 : Nat}
    (h1 : (l ++ [x]).get? i = some s1) (h2 : (l ++ [x]).get? (i + 1) = some s2) :
    s1 ∈ l := by
  obtain ⟨hlt, -⟩ := List.get?_eq_some.mp h2
  rw [List.length_append, List.length_singleton] at hlt
  rw [List.get?_eq_getElem?, List.getElem?_append_left (by omega),
    ← List.get?_eq_getElem?] at h1
  exact List.get?_mem h1

/-- Every requested offset that is followed by another request returned a
full page of at least 100 results. -/
theorem fsisQueryLoop_chain (oracle : Nat → List Recall) (cap : Nat) :
    ∀ (fuel skip : Nat) (st : ScrapeState) (offs : List Nat),
      (∀ x ∈ offs, 100 ≤ (oracle x).length) →
      ∀ (i s1 s2 : Nat),
        ((fsisQueryLoop oracle cap fuel skip st offs).2).get? i = some s1 →
        ((fsisQueryLoop oracle cap fuel skip st offs).2).get? (i + 1) = some s2 →
        100 ≤ (oracle s1).length := by
  intro fuel
  induction fuel with
  | zero =>
    intro skip st offs hall i s1 s2 h1 h2
    exact hall s1 (List.get?_mem h1)
  | succ fuel ih =>
    intro skip st offs hall i s1 s2 h1 h2
    by_cases hc : skip < cap
    · by_cases he : oracle skip = []
      · rw [fsisQueryLoop_stopEmpty oracle cap fuel skip st offs hc he] at h1 h2
        exact hall s1 (get?_append_pair h1 h2)
      · by_cases hs : (oracle skip).length < 100
        · rw [fsisQueryLoop_stopShort oracle cap fuel skip st offs hc he hs] at h1 h2
          exact hall s1 (get?_append_pair h1 h2)
        · rw [fsisQueryLoop_step oracle cap fuel skip st offs hc he hs] at h1 h2
          refine ih _ _ _ ?_ i s1 s2 h1 h2
          intro x hx
          rcases List.mem_append.mp hx with hx | hx
          · exact hall x hx
          · rw [List.mem_singleton] at hx
            subst hx
            omega
    · rw [fsisQueryLoop_stopCap oracle cap fuel skip st offs hc] at h1 h2
      exact hall s1 (List.get?_mem h1)

/-- C7: with a per-query cap of 250 and every page returning exactly 100
results, the recall fetcher issues exactly 3 page requests at offsets 0,
100 and 200 and then stops; and for any query, an offset whose page
returned fewer than 100 results is never followed by another request. -/
theorem fsis_pagination_cap :
    (∀ (oracle : Nat → List Recall) (st : ScrapeState),
        (∀ s, (oracle s).length = 100) →
        (fsisQuery oracle 250 st).2 = [0, 100, 200]) ∧
    (∀ (oracle : Nat → List Recall) (cap : Nat) (st : ScrapeState) (i s1 s2 : Nat),
        ((fsisQuery oracle cap st).2).get? i = some s1 →
        ((fsisQuery oracle cap st).2).get? (i + 1) = some s2 →
        100 ≤ (oracle s1).length) := by
  constructor
  · intro oracle st h
    have hne : ∀ s, oracle s ≠ [] := by
      intro s he
      have hl := h s
      rw [he] at hl
      simp at hl
    show (fsisQueryLoop oracle 250 (250 + 1) 0 st []).2 = [0, 100, 200]
    rw [fsisQueryLoop_step oracle 250 250 0 st [] (by omega) (hne 0)
        (by rw [h 0]; omega), h 0]
    norm_num
    rw [show (250 : Nat) = 249 + 1 from rfl,
      fsisQueryLoop_step oracle (249 + 1) 249 100 _ _ (by omega) (hne 100)
        (by rw [h 100]; omega), h 100]
    norm_num
    rw [show (249 : Nat) = 248 + 1 from rfl,
      fsisQueryLoop_step oracle 250 248 200 _ _ (by omega) (hne 200)
        (by rw [h 200]; omega), h 200]
    norm_num
    rw [show (248 : Nat) = 247 + 1 from rfl,
      fsisQueryLoop_stopCap oracle 250 247 300 _ _ (by omega)]
  · intro oracle cap st i s1 s2 h1 h2
    exact fsisQueryLoop_chain oracle cap (cap + 1) 0 st [] (by simp) i s1 s2 h1 h2

/-- Witness for `fsis_pagination_cap` with a constant 100-result oracle. -/
theorem fsis_pagination_cap_witness :
    (fsisQuery (fun _ => List.replicate 100 blankRc) 250 ⟨[], [], 0⟩).2 = [0, 100, 200] :=
  fsis_pagination_cap.1 (fun _ => List.replicate 100 blankRc) ⟨[], [], 0⟩
    (fun _ => List.length_replicate 100 blankRc)

end Tracker
